import Mathlib

/-!
Shallow embedding of `osm_industrial_filter.py` (class `OSMIndustrialFilter`).

Coordinates and areas are modelled with `ℚ` (the source uses Python floats;
none of the verified properties depend on float rounding).  External library
calls (shapely centroid / pyproj reprojection, the Overpass and Nominatim
HTTP services) are modelled as explicit parameters or enumerated outcome
types; every piece of logic written in the repository itself is translated
directly from the source.
-/

namespace OSMFilter

/-- A coordinate pair `(longitude, latitude)`, as built by
`(float(node.lon), float(node.lat))` in the source. -/
abbrev Coord := ℚ × ℚ

/-- An ordered coordinate list, `List[Tuple[float, float]]` in the source. -/
abbrev CoordList := List Coord

/-- A relation member (overpy member object): its `role` string and, when the
member carries node geometry (`hasattr(member, 'nodes')`), the coordinate list
read off its nodes; `none` models a member without attached node geometry. -/
structure Member where
  role : String
  nodes : Option CoordList
deriving DecidableEq

/-- An OSM relation as consumed by `relation_to_coordinates` and
`create_geojson_feature`: id, tag mapping (association list in dict insertion
order; overpy tags form a Python dict, so keys are unique) and member list. -/
structure Relation where
  id : Int
  tags : List (String × String)
  members : List Member
deriving DecidableEq

/-- An OSM way: id, tag mapping and its node coordinate list. -/
structure Way where
  id : Int
  tags : List (String × String)
  nodes : CoordList
deriving DecidableEq

/-- Property values stored in a feature's `properties` dict: the source mixes
the integer `element.id`, strings, and rounded numeric areas. -/
inductive PropValue where
  | str (s : String)
  | int (i : Int)
  | num (q : ℚ)
deriving DecidableEq

/-- A GeoJSON feature as built by `create_geojson_feature`: the `properties`
dict (association list in insertion order) and the single polygon ring stored
under `geometry.coordinates[0]`. -/
structure Feature where
  properties : List (String × PropValue)
  ring : CoordList
deriving DecidableEq

/-- The element fields `create_geojson_feature` actually reads: `element.id`,
`element.tags`, and whether `hasattr(element, 'nodes')` holds (true for ways,
false for relations), which decides the `osm_type` property. -/
structure Element where
  id : Int
  isWay : Bool
  tags : List (String × String)
deriving DecidableEq

/-- Python `int()` truncation toward zero on an exact rational. -/
def pythonInt (q : ℚ) : Int :=
  if 0 ≤ q then ⌊q⌋ else ⌈q⌉

/-- Source line 115: `utm_zone = int((lon + 180) / 6) + 1`. -/
def utm_zone (lon : ℚ) : Int :=
  pythonInt ((lon + 180) / 6) + 1

/-- Source line 116:
`utm_epsg = 32600 + utm_zone if lat >= 0 else 32700 + utm_zone`. -/
def utm_epsg (lon lat : ℚ) : Int :=
  if 0 ≤ lat then 32600 + utm_zone lon else 32700 + utm_zone lon

/-- `calculate_area` (source lines 106-123).  The shapely centroid computation
and the pyproj UTM reprojection + planar area are external library calls,
passed in as `centroid` and `utmArea` (the latter receives the EPSG code the
source selects).  The repository's own logic — the `< 3` short-circuit and the
UTM zone / EPSG selection — is embedded exactly. -/
def calculate_area (centroid : CoordList → ℚ × ℚ)
    (utmArea : Int → CoordList → ℚ) (geometry : CoordList) : ℚ :=
  if geometry.length < 3 then 0
  else
    let lon := (centroid geometry).1
    let lat := (centroid geometry).2
    utmArea (utm_epsg lon lat) geometry

/-- `way_to_coordinates` (source lines 125-126): the way's node coordinates in
member order. -/
def way_to_coordinates (way : Way) : CoordList :=
  way.nodes

/-- `relation_to_coordinates` (source lines 128-142): collects coordinate
lists of members with role `"outer"` (resp. `"inner"`) that carry node
geometry and have at least 3 points, and returns `outer_rings + inner_rings`. -/
def relation_to_coordinates (relation : Relation) : List CoordList :=
  let outer_rings := relation.members.filterMap (fun member =>
    match member.nodes with
    | some coords =>
        if member.role = "outer" ∧ 3 ≤ coords.length then some coords else none
    | none => none)
  let inner_rings := relation.members.filterMap (fun member =>
    match member.nodes with
    | some coords =>
        if member.role = "inner" ∧ 3 ≤ coords.length then some coords else none
    | none => none)
  outer_rings ++ inner_rings

/-- Ring closing, source lines 145-146: if `coordinates[0] != coordinates[-1]`
append `coordinates[0]`.  On the empty list the source would raise an
`IndexError`; that case is modelled as the identity and is never reached in
the pipeline, which guards every call with a length check. -/
def closeRing (coordinates : CoordList) : CoordList :=
  match coordinates.head?, coordinates.getLast? with
  | some first, some last => if first ≠ last then coordinates ++ [first] else coordinates
  | _, _ => coordinates

/-- Round-half-to-even on an exact rational, the tie-breaking rule of Python's
builtin `round`. -/
def roundHalfEven (q : ℚ) : Int :=
  if q - ⌊q⌋ < 1 / 2 then ⌊q⌋
  else if 1 / 2 < q - ⌊q⌋ then ⌊q⌋ + 1
  else if ⌊q⌋ % 2 = 0 then ⌊q⌋ else ⌊q⌋ + 1

/-- Python `round(x, 2)`: round to 2 decimal places, ties to even. -/
def round2 (q : ℚ) : ℚ :=
  (roundHalfEven (q * 100) : ℚ) / 100

/-- The base `properties` dict literal of `create_geojson_feature` (source
lines 148-154), in insertion order. -/
def baseProperties (osm_id : Int) (osm_type : String) (area : ℚ) :
    List (String × PropValue) :=
  [("osm_id", PropValue.int osm_id),
   ("osm_type", PropValue.str osm_type),
   ("landuse", PropValue.str "industrial"),
   ("area_sqm", PropValue.num (round2 area)),
   ("area_hectares", PropValue.num (round2 (area / 10000)))]

/-- The five keys of the base `properties` dict. -/
def baseKeys : List String :=
  ["osm_id", "osm_type", "landuse", "area_sqm", "area_hectares"]

/-- The tag-merging loop of `create_geojson_feature` (source lines 156-158):
`for key, value in element.tags.items(): if key not in properties:
properties[key] = value`.  Python dict insertion appends at the end. -/
def mergeTags (properties : List (String × PropValue))
    (tags : List (String × String)) : List (String × PropValue) :=
  tags.foldl (fun props kv =>
    if (props.map Prod.fst).contains kv.1 then props
    else props ++ [(kv.1, PropValue.str kv.2)]) properties

/-- `create_geojson_feature` (source lines 144-169), value-level: close the
ring, build the base properties (`osm_type` from `hasattr(element, 'nodes')`),
merge the element's tags, and wrap ring and properties into a feature. -/
def create_geojson_feature (element : Element) (coordinates : CoordList)
    (area : ℚ) : Feature :=
  { properties := mergeTags
      (baseProperties element.id (if element.isWay then "way" else "relation") area)
      element.tags,
    ring := closeRing coordinates }

/-- `max(coord_rings, key=len) if coord_rings else []` (source line 215):
Python `max` keeps the first element of maximal key, replacing the current
best only on a strictly greater key. -/
def largestRing (rings : List CoordList) : CoordList :=
  match rings with
  | [] => []
  | r :: rs => rs.foldl (fun best c => if best.length < c.length then c else best) r

/-- The way branch of the `fetch_and_filter` loop (source lines 188-206), for
one way: skip if fewer than 3 coordinates, compute the area, and build a
feature iff `area >= self.min_area_sqm`. -/
def processWay (min_area_sqm : ℚ) (centroid : CoordList → ℚ × ℚ)
    (utmArea : Int → CoordList → ℚ) (way : Way) : Option Feature :=
  let coordinates := way_to_coordinates way
  if coordinates.length < 3 then none
  else
    let area := calculate_area centroid utmArea coordinates
    if min_area_sqm ≤ area then
      some (create_geojson_feature ⟨way.id, true, way.tags⟩ coordinates area)
    else none

/-- The relation branch of the `fetch_and_filter` loop (source lines 208-230),
for one relation: skip if no coordinate rings, select the largest ring, skip
if it has fewer than 3 points, compute its area, and build a feature iff
`area >= self.min_area_sqm`. -/
def processRelation (min_area_sqm : ℚ) (centroid : CoordList → ℚ × ℚ)
    (utmArea : Int → CoordList → ℚ) (relation : Relation) : Option Feature :=
  let coord_rings := relation_to_coordinates relation
  if coord_rings.isEmpty then none
  else
    let largest_ring := largestRing coord_rings
    if largest_ring.length < 3 then none
    else
      let area := calculate_area centroid utmArea largest_ring
      if min_area_sqm ≤ area then
        some (create_geojson_feature ⟨relation.id, false, relation.tags⟩ largest_ring area)
      else none

/-- `fetch_and_filter`'s feature accumulation (source lines 184-234): the
kept features of all ways, in order, followed by those of all relations. -/
def fetch_and_filter (min_area_sqm : ℚ) (centroid : CoordList → ℚ × ℚ)
    (utmArea : Int → CoordList → ℚ) (ways : List Way)
    (relations : List Relation) : List Feature :=
  ways.filterMap (processWay min_area_sqm centroid utmArea) ++
    relations.filterMap (processRelation min_area_sqm centroid utmArea)

/-- The summary metadata of the exported feature collection (source lines
241-256): count, threshold, optional country and optional bounding box.  The
`description` string interpolates only `min_area_sqm`, recorded here as the
rational itself. -/
structure CollectionMeta where
  description_min : ℚ
  count : Nat
  min_area_sqm : ℚ
  country : Option String
  bounding_box : Option (ℚ × ℚ × ℚ × ℚ)
deriving DecidableEq

/-- The feature collection serialized by `export_geojson` (source lines
258-262). -/
structure FeatureCollection where
  features : List Feature
  meta : CollectionMeta
deriving DecidableEq

/-- `export_geojson` (source lines 236-269).  The file system effect is made
explicit: the first component is `some (filename, collection)` when the
function opens and writes the file and `none` when it does not; the second
component is the returned string.  An empty feature list returns `""` before
any file is touched; otherwise the collection is written and the filename
returned. -/
def export_geojson (min_area_sqm : ℚ) (country : Option String)
    (bbox : Option (ℚ × ℚ × ℚ × ℚ)) (filtered_features : List Feature)
    (filename : String) : Option (String × FeatureCollection) × String :=
  if filtered_features.isEmpty then (none, "")
  else
    let meta : CollectionMeta :=
      { description_min := min_area_sqm,
        count := filtered_features.length,
        min_area_sqm := min_area_sqm,
        country := country,
        bounding_box := bbox }
    (some (filename, { features := filtered_features, meta := meta }), filename)

/-- One entry of the Nominatim result list read by `get_country_bbox`: the
optional `address` sub-dict (only logged, never returned from), and the
optional `boundingbox` field, whose entries are the outcomes of `float()` on
the four strings (`none` models an unparseable string). -/
structure NominatimResult where
  address : Option (List (String × String))
  boundingbox : Option (List (Option ℚ))
deriving DecidableEq

/-- The possible outcomes of the HTTP request + `response.json()` at source
lines 47-50: a transport error (`requests.exceptions.RequestException`), a
JSON parse error (`ValueError`), or a decoded result list. -/
inductive FetchOutcome where
  | requestError
  | jsonError
  | ok (results : List NominatimResult)
deriving DecidableEq

/-- `south, north, west, east = map(float, bbox_str)` (source line 65): fails
with `ValueError` (modelled as `none`) unless the list has exactly four
entries and each string parses. -/
def parseBoundingBox : List (Option ℚ) → Option (ℚ × ℚ × ℚ × ℚ)
  | [some south, some north, some west, some east] => some (south, north, west, east)
  | _ => none

/-- The `try`/`except` statement of `get_country_bbox` (source lines 46-81)
with fall-through made explicit: `some r` means some branch executed
`return r`; `none` would mean control left the statement normally and fell
through to the `time.sleep(1)` on line 83.  Every branch of the source body
ends in a `return`, which is what the claim about the unreachable sleep is
about. -/
def get_country_bbox_try (o : FetchOutcome) :
    Option (Option (ℚ × ℚ × ℚ × ℚ)) :=
  match o with
  | .requestError => some none
  | .jsonError => some none
  | .ok results =>
    match results.head? with
    | none => some none
    | some result =>
      match result.boundingbox with
      | none => some none
      | some entries =>
        match parseBoundingBox entries with
        | none => some none
        | some (south, north, west, east) => some (some (south, west, north, east))

/-- `get_country_bbox` (source lines 28-83): the returned bounding box paired
with a flag recording whether the trailing `time.sleep(1)` executed.  The
sleep runs exactly when the `try` statement falls through without returning. -/
def get_country_bbox (o : FetchOutcome) : Option (ℚ × ℚ × ℚ × ℚ) × Bool :=
  match get_country_bbox_try o with
  | some r => (r, false)
  | none => (none, true)

/-- A heap of Python list objects: references (`Nat`) to coordinate-list
values.  Used to state the in-place mutation behaviour of
`create_geojson_feature`. -/
abbrev Heap := Nat → CoordList

/-- A feature whose geometry holds a *reference* to a coordinate list rather
than a value, mirroring that the source stores the caller's list object
itself in `geometry.coordinates[0]`. -/
structure FeatureRef where
  properties : List (String × PropValue)
  ringRef : Nat

/-- `create_geojson_feature` at the level of Python object identity (source
lines 144-169): `coordinates.append(coordinates[0])` mutates the caller's
list in place, and the feature stores that same object.  The heap cell at
`ref` is updated with the closed ring, and the returned feature holds `ref`
itself. -/
def create_geojson_feature_inplace (heap : Heap) (element : Element)
    (ref : Nat) (area : ℚ) : Heap × FeatureRef :=
  let coordinates := heap ref
  let heap := Function.update heap ref (closeRing coordinates)
  (heap,
   { properties := mergeTags
       (baseProperties element.id (if element.isWay then "way" else "relation") area)
       element.tags,
     ringRef := ref })

/-! ### Helper lemmas -/

/-- Every ring returned by `relation_to_coordinates` has at least 3 points:
both member filters require `len(coords) >= 3`. -/
lemma length_of_mem_relation_to_coordinates (rel : Relation) (ring : CoordList)
    (h : ring ∈ relation_to_coordinates rel) : 3 ≤ ring.length := by
  unfold relation_to_coordinates at h
  simp only [List.mem_append, List.mem_filterMap] at h
  rcases h with ⟨m, -, hm⟩ | ⟨m, -, hm⟩ <;>
    rcases hn : m.nodes with - | coords <;> rw [hn] at hm
  · simp at hm
  · by_cases hc : m.role = "outer" ∧ 3 ≤ coords.length
    · simp only [if_pos hc] at hm
      cases hm
      exact hc.2
    · simp [if_neg hc] at hm
  · simp at hm
  · by_cases hc : m.role = "inner" ∧ 3 ≤ coords.length
    · simp only [if_pos hc] at hm
      cases hm
      exact hc.2
    · simp [if_neg hc] at hm

/-- `largestRing` of a non-empty list is one of its elements. -/
lemma largestRing_mem (rings : List CoordList) (h : rings ≠ []) :
    largestRing rings ∈ rings := by
  match rings with
  | [] => exact absurd rfl h
  | r :: rs =>
    suffices hgen : ∀ (l : List CoordList) (b : CoordList),
        l.foldl (fun best c => if best.length < c.length then c else best) b ∈ b :: l by
      simpa [largestRing] using hgen rs r
    intro l
    induction l with
    | nil => intro b; simp
    | cons c cs ih =>
      intro b
      simp only [List.foldl_cons]
      rcases List.mem_cons.1 (ih (if b.length < c.length then c else b)) with h1 | h1
      · rw [h1]
        by_cases hb : b.length < c.length
        · simp [hb]
        · simp [hb]
      · exact List.mem_cons.2 (Or.inr (List.mem_cons.2 (Or.inr h1)))

/-- The largest ring of a non-empty `relation_to_coordinates` result has at
least 3 points. -/
lemma largestRing_length (rel : Relation)
    (h : relation_to_coordinates rel ≠ []) :
    3 ≤ (largestRing (relation_to_coordinates rel)).length :=
  length_of_mem_relation_to_coordinates rel _ (largestRing_mem _ h)

/-- Unfolding one step of the tag-merging loop. -/
lemma mergeTags_cons (props : List (String × PropValue)) (kv : String × String)
    (tags : List (String × String)) :
    mergeTags props (kv :: tags) =
      mergeTags (if (props.map Prod.fst).contains kv.1 then props
                 else props ++ [(kv.1, PropValue.str kv.2)]) tags := rfl

/-- Dict lookup is decided by the left part of an append when the key is
found there. -/
lemma lookup_append_left {l1 l2 : List (String × PropValue)} {k : String}
    {v : PropValue} (h : l1.lookup k = some v) : (l1 ++ l2).lookup k = some v := by
  induction l1 with
  | nil => simp [List.lookup] at h
  | cons p l1 ih =>
    rcases p with ⟨k0, v0⟩
    by_cases hk : k = k0
    · subst hk
      simp [List.lookup] at h ⊢
      exact h
    · have hb : (k == k0) = false := beq_eq_false_iff_ne.2 hk
      simp [List.lookup, hb] at h ⊢
      exact ih h

/-- A key absent from the key list looks up to `none`. -/
lemma lookup_eq_none_of_not_mem {l : List (String × PropValue)} {k : String}
    (h : k ∉ l.map Prod.fst) : l.lookup k = none := by
  induction l with
  | nil => simp [List.lookup]
  | cons p l ih =>
    rcases p with ⟨k0, v0⟩
    simp only [List.map_cons, List.mem_cons, not_or] at h
    have hb : (k == k0) = false := beq_eq_false_iff_ne.2 h.1
    simp only [List.lookup, hb]
    exact ih h.2

/-- Dict lookup passes to the right part of an append when the key is absent
on the left. -/
lemma lookup_append_right {l1 l2 : List (String × PropValue)} {k : String}
    (h : k ∉ l1.map Prod.fst) : (l1 ++ l2).lookup k = l2.lookup k := by
  induction l1 with
  | nil => simp
  | cons p l1 ih =>
    rcases p with ⟨k0, v0⟩
    simp only [List.map_cons, List.mem_cons, not_or] at h
    have hb : (k == k0) = false := beq_eq_false_iff_ne.2 h.1
    simp only [List.cons_append, List.lookup, hb]
    exact ih h.2

/-- The merge loop only ever appends: its result extends the initial dict. -/
lemma mergeTags_exists_append (tags : List (String × String))
    (props : List (String × PropValue)) :
    ∃ extra, mergeTags props tags = props ++ extra := by
  induction tags generalizing props with
  | nil => exact ⟨[], by simp [mergeTags]⟩
  | cons kv tags ih =>
    rw [mergeTags_cons]
    by_cases hc : (props.map Prod.fst).contains kv.1
    · rw [if_pos hc]
      exact ih props
    · rw [if_neg hc]
      rcases ih (props ++ [(kv.1, PropValue.str kv.2)]) with ⟨e, he⟩
      exact ⟨(kv.1, PropValue.str kv.2) :: e, by rw [he]; simp⟩

/-- Merging tags never changes the lookup of a key already present. -/
lemma mergeTags_lookup_left {tags : List (String × String)}
    {props : List (String × PropValue)} {k : String} {v : PropValue}
    (h : props.lookup k = some v) : (mergeTags props tags).lookup k = some v := by
  rcases mergeTags_exists_append tags props with ⟨e, he⟩
  rw [he]
  exact lookup_append_left h

/-- A tag whose key (unique among the tag keys) is absent from the initial
dict ends up in the merged dict with its own value. -/
lemma mergeTags_lookup_new {tags : List (String × String)} :
    ∀ {props : List (String × PropValue)} {k v : String},
    (tags.map Prod.fst).Nodup → (k, v) ∈ tags → k ∉ props.map Prod.fst →
    (mergeTags props tags).lookup k = some (PropValue.str v) := by
  induction tags with
  | nil =>
    intro props k v _ hmem _
    simp at hmem
  | cons kv tags ih =>
    intro props k v hnd hmem hk
    rcases kv with ⟨k0, v0⟩
    rw [mergeTags_cons]
    simp only [List.map_cons, List.nodup_cons] at hnd
    rcases List.mem_cons.1 hmem with heq | htail
    · cases heq
      have hc : ¬ ((props.map Prod.fst).contains k = true) := by
        simp [hk]
      rw [if_neg hc]
      apply mergeTags_lookup_left
      rw [lookup_append_right hk]
      simp [List.lookup]
    · have hk0 : k ≠ k0 := by
        intro h
        subst h
        exact hnd.1 (List.mem_map.2 ⟨(k, v), htail, rfl⟩)
      by_cases hc : (props.map Prod.fst).contains k0
      · rw [if_pos hc]
        exact ih hnd.2 htail hk
      · rw [if_neg hc]
        apply ih hnd.2 htail
        simp only [List.map_append, List.map_cons, List.map_nil]
        intro hmem2
        rcases List.mem_append.1 hmem2 with h1 | h1
        · exact hk h1
        · simp at h1
          exact hk0 h1

/-- A closed ring (`coordinates[0] == coordinates[-1]`) is left unchanged. -/
lemma closeRing_of_closed {c : CoordList} (hne : c ≠ [])
    (h : c.head? = c.getLast?) : closeRing c = c := by
  rcases hf : c.head? with - | f
  · cases c
    · exact absurd rfl hne
    · simp at hf
  · have hl : c.getLast? = some f := by rw [← h, hf]
    unfold closeRing
    rw [hf, hl]
    simp

/-- An open ring gets exactly one copy of its first point appended. -/
lemma closeRing_of_open {c : CoordList} {f l : Coord} (hf : c.head? = some f)
    (hl : c.getLast? = some l) (hne : f ≠ l) : closeRing c = c ++ [f] := by
  unfold closeRing
  rw [hf, hl]
  simp [hne]

/-- Closing a non-empty ring is idempotent. -/
lemma closeRing_idem (c : CoordList) (hne : c ≠ []) :
    closeRing (closeRing c) = closeRing c := by
  rcases hf : c.head? with - | f
  · cases c
    · exact absurd rfl hne
    · simp at hf
  rcases hl : c.getLast? with - | l
  · cases c
    · exact absurd rfl hne
    · simp at hl
  by_cases hfl : f = l
  · have hcl : closeRing c = c := closeRing_of_closed hne (by rw [hf, hl, hfl])
    rw [hcl, hcl]
  · have hop : closeRing c = c ++ [f] := closeRing_of_open hf hl hfl
    rw [hop]
    apply closeRing_of_closed (by simp)
    have h1 : (c ++ [f]).head? = some f := by
      cases c
      · exact absurd rfl hne
      · simpa using hf
    rw [h1, List.getLast?_concat]

/-- With a non-empty ring list, the relation branch reduces to the area
comparison on the largest ring. -/
lemma processRelation_eq (min_area_sqm : ℚ) (centroid : CoordList → ℚ × ℚ)
    (utmArea : Int → CoordList → ℚ) (rel : Relation)
    (hne : relation_to_coordinates rel ≠ []) :
    processRelation min_area_sqm centroid utmArea rel =
      if min_area_sqm ≤ calculate_area centroid utmArea
          (largestRing (relation_to_coordinates rel)) then
        some (create_geojson_feature ⟨rel.id, false, rel.tags⟩
          (largestRing (relation_to_coordinates rel))
          (calculate_area centroid utmArea (largestRing (relation_to_coordinates rel))))
      else none := by
  have h1 : (relation_to_coordinates rel).isEmpty = false := by
    simpa [List.isEmpty_iff] using hne
  have h2 : ¬ (largestRing (relation_to_coordinates rel)).length < 3 :=
    not_lt.2 (largestRing_length rel hne)
  simp only [processRelation, h1, Bool.false_eq_true, if_false, if_neg h2]

/-- Keys of the base properties dict, in order. -/
lemma baseProperties_keys (osm_id : Int) (osm_type : String) (area : ℚ) :
    (baseProperties osm_id osm_type area).map Prod.fst = baseKeys := rfl

/-- Every branch of the `try` statement in `get_country_bbox` returns. -/
lemma get_country_bbox_try_isSome (o : FetchOutcome) :
    (get_country_bbox_try o).isSome = true := by
  cases o with
  | requestError => rfl
  | jsonError => rfl
  | ok results =>
    cases hr : results.head? with
    | none => simp [get_country_bbox_try, hr]
    | some result =>
      cases hb : result.boundingbox with
      | none => simp [get_country_bbox_try, hr, hb]
      | some entries =>
        cases hp : parseBoundingBox entries with
        | none => simp [get_country_bbox_try, hr, hb, hp]
        | some q =>
          rcases q with ⟨s, n, w, e2⟩
          simp [get_country_bbox_try, hr, hb, hp]

/-! ### Concrete inputs used by witnesses and counterexamples -/

/-- A relation whose single member has role `"inner"` and a 4-point ring. -/
def innerOnlyRelation : Relation :=
  { id := 1, tags := [],
    members := [{ role := "inner", nodes := some [(0, 0), (1, 0), (1, 1), (0, 1)] }] }

/-- A 3-node way (an open triangle). -/
def sampleWay : Way :=
  { id := 2, tags := [], nodes := [(0, 0), (1, 0), (1, 1)] }

/-- A way with only 2 nodes, below the 3-point threshold. -/
def degenerateWay : Way :=
  { id := 3, tags := [], nodes := [(0, 0), (1, 0)] }

/-- A relation whose only geometric member carries a 2-point ring. -/
def degenerateRelation : Relation :=
  { id := 4, tags := [],
    members := [{ role := "outer", nodes := some [(0, 0), (1, 0)] },
                { role := "inner", nodes := none }] }

/-- An element with a tag colliding with a base key and a fresh tag. -/
def sampleElement : Element :=
  { id := 7, isWay := true,
    tags := [("landuse", "retail"), ("name", "Plant")] }

/-! ### Claim theorems -/

/-- C1 counterexample: the claim says an all-inner relation yields no
feature, but on a relation whose single member has role `"inner"` and a
4-point ring, the relation branch of `fetch_and_filter` does build a feature
(threshold 10000 m², an area oracle reporting the large positive area a
degree-sized square has). -/
theorem inner_only_relation_yields_feature :
    (processRelation 10000 (fun _ => (1/2, 1/2)) (fun _ _ => 12000000000)
      innerOnlyRelation).isSome = true := by
  decide

/-- C1 (amended): for a relation none of whose members has role `"outer"`,
the extraction-and-filter pipeline treats the largest inner ring like any
polygon: a feature is built exactly when some inner member contributes a ring
(≥ 3 points with geometry) and the largest ring's computed area reaches the
configured minimum. -/
theorem processRelation_inner_only_characterization
    (min_area_sqm : ℚ) (centroid : CoordList → ℚ × ℚ)
    (utmArea : Int → CoordList → ℚ) (rel : Relation)
    (_hinner : ∀ m ∈ rel.members, m.role ≠ "outer") :
    (processRelation min_area_sqm centroid utmArea rel).isSome = true ↔
      (relation_to_coordinates rel ≠ [] ∧
        min_area_sqm ≤ calculate_area centroid utmArea
          (largestRing (relation_to_coordinates rel))) := by
  by_cases hne : relation_to_coordinates rel = []
  · have h1 : (relation_to_coordinates rel).isEmpty = true := by
      simp [List.isEmpty_iff, hne]
    simp [processRelation, h1, hne]
  · rw [processRelation_eq _ _ _ _ hne]
    by_cases hle : min_area_sqm ≤ calculate_area centroid utmArea
        (largestRing (relation_to_coordinates rel))
    · simp [hle, hne]
    · simp [hle, hne]

/-- C1 amended witness: the characterization applied to the concrete
all-inner relation. -/
theorem processRelation_inner_only_characterization_witness :
    (∀ m ∈ innerOnlyRelation.members, m.role ≠ "outer") ∧
    ((processRelation 10000 (fun _ => (1/2, 1/2)) (fun _ _ => 12000000000)
        innerOnlyRelation).isSome = true ↔
      (relation_to_coordinates innerOnlyRelation ≠ [] ∧
        10000 ≤ calculate_area (fun _ => (1/2, 1/2)) (fun _ _ => 12000000000)
          (largestRing (relation_to_coordinates innerOnlyRelation)))) :=
  ⟨by decide,
   processRelation_inner_only_characterization 10000 (fun _ => (1/2, 1/2))
     (fun _ _ => 12000000000) innerOnlyRelation (by decide)⟩

/-- C9: every ring returned by `relation_to_coordinates` has at least 3
coordinate pairs, so the `len(largest_ring) < 3` check in `fetch_and_filter`
can never reject a ring drawn from a non-empty result. -/
theorem relation_rings_ge_three_invariant (rel : Relation) :
    (∀ ring ∈ relation_to_coordinates rel, 3 ≤ ring.length) ∧
    (relation_to_coordinates rel ≠ [] →
      ¬ (largestRing (relation_to_coordinates rel)).length < 3) :=
  ⟨fun ring hr => length_of_mem_relation_to_coordinates rel ring hr,
   fun hne => not_lt.2 (largestRing_length rel hne)⟩

/-- C9 witness: the invariant applied to the concrete all-inner relation. -/
theorem relation_rings_ge_three_invariant_witness :
    3 ≤ ([((0:ℚ), (0:ℚ)), (1, 0), (1, 1), (0, 1)] : CoordList).length ∧
    ¬ (largestRing (relation_to_coordinates innerOnlyRelation)).length < 3 :=
  ⟨(relation_rings_ge_three_invariant innerOnlyRelation).1
      [(0, 0), (1, 0), (1, 1), (0, 1)] (by decide),
   (relation_rings_ge_three_invariant innerOnlyRelation).2 (by decide)⟩

/-- C2: the area filter is inclusive at the boundary.  For a way with at
least 3 coordinates, and for a relation with a non-empty ring list, an
element whose computed area equals the configured minimum is retained (a
feature is built), and one whose computed area is strictly below it yields
no feature. -/
theorem filter_boundary_inclusive
    (min_area_sqm : ℚ) (centroid : CoordList → ℚ × ℚ)
    (utmArea : Int → CoordList → ℚ) (way : Way) (rel : Relation)
    (hway : 3 ≤ way.nodes.length) (hrel : relation_to_coordinates rel ≠ []) :
    (calculate_area centroid utmArea (way_to_coordinates way) = min_area_sqm →
        (processWay min_area_sqm centroid utmArea way).isSome = true) ∧
    (calculate_area centroid utmArea (way_to_coordinates way) < min_area_sqm →
        processWay min_area_sqm centroid utmArea way = none) ∧
    (calculate_area centroid utmArea (largestRing (relation_to_coordinates rel)) =
          min_area_sqm →
        (processRelation min_area_sqm centroid utmArea rel).isSome = true) ∧
    (calculate_area centroid utmArea (largestRing (relation_to_coordinates rel)) <
          min_area_sqm →
        processRelation min_area_sqm centroid utmArea rel = none) := by
  have hw : ¬ (way_to_coordinates way).length < 3 := not_lt.2 hway
  refine ⟨fun heq => ?_, fun hlt => ?_, fun heq => ?_, fun hlt => ?_⟩
  · simp [processWay, hw, le_of_eq heq.symm]
  · simp [processWay, hw, not_le.2 hlt]
  · rw [processRelation_eq _ _ _ _ hrel]
    simp [le_of_eq heq.symm]
  · rw [processRelation_eq _ _ _ _ hrel]
    simp [not_le.2 hlt]

/-- C2 witness: with threshold 5 and an area oracle returning exactly 5, the
3-node way and the all-inner relation are both retained; with an oracle
returning an area below a threshold of 6, neither is. -/
theorem filter_boundary_inclusive_witness :
    3 ≤ sampleWay.nodes.length ∧
    relation_to_coordinates innerOnlyRelation ≠ [] ∧
    ((processWay 5 (fun _ => (0, 0)) (fun _ _ => 5) sampleWay).isSome = true) ∧
    ((processRelation 5 (fun _ => (0, 0)) (fun _ _ => 5)
        innerOnlyRelation).isSome = true) :=
  ⟨by decide, by decide,
   (filter_boundary_inclusive 5 (fun _ => (0, 0)) (fun _ _ => 5) sampleWay
       innerOnlyRelation (by decide) (by decide)).1 (by decide),
   (filter_boundary_inclusive 5 (fun _ => (0, 0)) (fun _ _ => 5) sampleWay
       innerOnlyRelation (by decide) (by decide)).2.2.1 (by decide)⟩

/-- C3: a coordinate list with fewer than 3 points has `calculate_area` equal
to 0, and such elements are skipped by `fetch_and_filter` for every minimum
area, including 0: a way with fewer than 3 nodes and a relation none of whose
members carries a ring of 3 or more points yield no feature. -/
theorem degenerate_polygon_zero_area_skipped
    (centroid : CoordList → ℚ × ℚ) (utmArea : Int → CoordList → ℚ)
    (geometry : CoordList) (min_area_sqm : ℚ) (way : Way) (rel : Relation)
    (hg : geometry.length < 3) (hw : way.nodes.length < 3)
    (hr : ∀ m ∈ rel.members, ∀ r, m.nodes = some r → r.length < 3) :
    calculate_area centroid utmArea geometry = 0 ∧
    processWay min_area_sqm centroid utmArea way = none ∧
    processRelation min_area_sqm centroid utmArea rel = none := by
  refine ⟨by simp [calculate_area, hg], by simp [processWay, way_to_coordinates, hw], ?_⟩
  have hempty : relation_to_coordinates rel = [] := by
    unfold relation_to_coordinates
    rw [List.append_eq_nil]
    constructor <;>
      · rw [List.filterMap_eq_nil_iff]
        intro m hm
        rcases hn : m.nodes with - | coords
        · simp
        · have hlen : coords.length < 3 := hr m hm coords hn
          simp [not_le.2 hlen]
  simp [processRelation, hempty]

/-- C3 witness: a 2-point geometry, the 2-node way, and the degenerate
relation, at minimum area 0. -/
theorem degenerate_polygon_zero_area_skipped_witness :
    ([((0:ℚ), (0:ℚ)), (1, 0)] : CoordList).length < 3 ∧
    degenerateWay.nodes.length < 3 ∧
    calculate_area (fun _ => (0, 0)) (fun _ _ => 99) [(0, 0), (1, 0)] = 0 ∧
    processWay 0 (fun _ => (0, 0)) (fun _ _ => 99) degenerateWay = none ∧
    processRelation 0 (fun _ => (0, 0)) (fun _ _ => 99) degenerateRelation = none :=
  ⟨by decide, by decide,
   (degenerate_polygon_zero_area_skipped (fun _ => (0, 0)) (fun _ _ => 99)
       [(0, 0), (1, 0)] 0 degenerateWay degenerateRelation (by decide) (by decide)
       (by decide)).1,
   (degenerate_polygon_zero_area_skipped (fun _ => (0, 0)) (fun _ _ => 99)
       [(0, 0), (1, 0)] 0 degenerateWay degenerateRelation (by decide) (by decide)
       (by decide)).2.1,
   (degenerate_polygon_zero_area_skipped (fun _ => (0, 0)) (fun _ _ => 99)
       [(0, 0), (1, 0)] 0 degenerateWay degenerateRelation (by decide) (by decide)
       (by decide)).2.2⟩

/-- C4: ring closing in `create_geojson_feature` is idempotent.  For a ring
of at least 3 points that is already closed (first point equals last), the
stored ring is the input unchanged; for an open ring, exactly one copy of the
first point is appended; and building a feature from an already-built ring
changes nothing. -/
theorem ring_closing_idempotent
    (element : Element) (area : ℚ) (coordinates : CoordList)
    (h3 : 3 ≤ coordinates.length) :
    (coordinates.head? = coordinates.getLast? →
       (create_geojson_feature element coordinates area).ring = coordinates) ∧
    (coordinates.head? ≠ coordinates.getLast? →
       ∃ first, coordinates.head? = some first ∧
         (create_geojson_feature element coordinates area).ring =
           coordinates ++ [first]) ∧
    (create_geojson_feature element
        ((create_geojson_feature element coordinates area).ring) area).ring =
      (create_geojson_feature element coordinates area).ring := by
  have hne : coordinates ≠ [] := by
    intro h
    rw [h] at h3
    simp at h3
  have hring : ∀ c, (create_geojson_feature element c area).ring = closeRing c :=
    fun c => rfl
  refine ⟨fun hcl => ?_, fun hop => ?_, ?_⟩
  · rw [hring]
    exact closeRing_of_closed hne hcl
  · rcases hf : coordinates.head? with - | f
    · cases coordinates
      · exact absurd rfl hne
      · simp at hf
    rcases hl : coordinates.getLast? with - | l
    · cases coordinates
      · exact absurd rfl hne
      · simp at hl
    refine ⟨f, rfl, ?_⟩
    rw [hring]
    apply closeRing_of_open hf hl
    intro hfl
    exact hop (by rw [hf, hl, hfl])
  · simp only [hring]
    exact closeRing_idem coordinates hne

/-- C4 witness: the open triangle gains one closing point and a second
feature build leaves it unchanged. -/
theorem ring_closing_idempotent_witness :
    3 ≤ ([((0:ℚ), (0:ℚ)), (1, 0), (1, 1)] : CoordList).length ∧
    ([((0:ℚ), (0:ℚ)), (1, 0), (1, 1)] : CoordList).head? ≠
      ([((0:ℚ), (0:ℚ)), (1, 0), (1, 1)] : CoordList).getLast? ∧
    (∃ first, ([((0:ℚ), (0:ℚ)), (1, 0), (1, 1)] : CoordList).head? = some first ∧
      (create_geojson_feature sampleElement [(0, 0), (1, 0), (1, 1)] 100).ring =
        [(0, 0), (1, 0), (1, 1)] ++ [first]) ∧
    (create_geojson_feature sampleElement
        ((create_geojson_feature sampleElement [(0, 0), (1, 0), (1, 1)] 100).ring)
        100).ring =
      (create_geojson_feature sampleElement [(0, 0), (1, 0), (1, 1)] 100).ring :=
  ⟨by decide, by decide,
   (ring_closing_idempotent sampleElement 100 [(0, 0), (1, 0), (1, 1)]
       (by decide)).2.1 (by decide),
   (ring_closing_idempotent sampleElement 100 [(0, 0), (1, 0), (1, 1)]
       (by decide)).2.2⟩

/-- C5: the feature's properties always hold the five base keys with their
computed values, regardless of the element's tags (a tag whose key collides
with a base key never changes the base value), and every tag whose key does
not collide with a base key is copied into the properties with its own
value.  Tag keys are unique since overpy tags form a Python dict. -/
theorem feature_properties_base_keys_stable
    (element : Element) (coordinates : CoordList) (area : ℚ)
    (hnd : (element.tags.map Prod.fst).Nodup) :
    ((create_geojson_feature element coordinates area).properties.lookup "osm_id" =
        some (PropValue.int element.id)) ∧
    ((create_geojson_feature element coordinates area).properties.lookup "osm_type" =
        some (PropValue.str (if element.isWay then "way" else "relation"))) ∧
    ((create_geojson_feature element coordinates area).properties.lookup "landuse" =
        some (PropValue.str "industrial")) ∧
    ((create_geojson_feature element coordinates area).properties.lookup "area_sqm" =
        some (PropValue.num (round2 area))) ∧
    ((create_geojson_feature element coordinates area).properties.lookup
        "area_hectares" = some (PropValue.num (round2 (area / 10000)))) ∧
    (∀ k v, (k, v) ∈ element.tags → k ∉ baseKeys →
      (create_geojson_feature element coordinates area).properties.lookup k =
        some (PropValue.str v)) := by
  have hp : (create_geojson_feature element coordinates area).properties =
      mergeTags (baseProperties element.id
        (if element.isWay then "way" else "relation") area) element.tags := rfl
  refine ⟨?_, ?_, ?_, ?_, ?_, ?_⟩
  · rw [hp]
    exact mergeTags_lookup_left (by simp [baseProperties, List.lookup])
  · rw [hp]
    exact mergeTags_lookup_left (by simp [baseProperties, List.lookup])
  · rw [hp]
    exact mergeTags_lookup_left (by simp [baseProperties, List.lookup])
  · rw [hp]
    exact mergeTags_lookup_left (by simp [baseProperties, List.lookup])
  · rw [hp]
    exact mergeTags_lookup_left (by simp [baseProperties, List.lookup])
  · intro k v hmem hkb
    rw [hp]
    exact mergeTags_lookup_new hnd hmem (by rw [baseProperties_keys]; exact hkb)

/-- C5 witness: on an element carrying the colliding tag
`("landuse", "retail")` and the fresh tag `("name", "Plant")`, the base value
survives and the fresh tag is copied. -/
theorem feature_properties_base_keys_stable_witness :
    (sampleElement.tags.map Prod.fst).Nodup ∧
    (create_geojson_feature sampleElement [(0, 0), (1, 0), (1, 1)] 100).properties.lookup
        "landuse" = some (PropValue.str "industrial") ∧
    (create_geojson_feature sampleElement [(0, 0), (1, 0), (1, 1)] 100).properties.lookup
        "name" = some (PropValue.str "Plant") :=
  ⟨by decide,
   (feature_properties_base_keys_stable sampleElement [(0, 0), (1, 0), (1, 1)] 100
       (by decide)).2.2.1,
   (feature_properties_base_keys_stable sampleElement [(0, 0), (1, 0), (1, 1)] 100
       (by decide)).2.2.2.2.2 "name" "Plant" (by decide) (by decide)⟩

/-- C6: for a polygon with at least 3 points whose centroid longitude lies in
[-180, 180], `calculate_area` selects the UTM zone `⌊(lon + 180) / 6⌋ + 1`
and hands the projection EPSG code 32600 + zone when the centroid latitude is
≥ 0 and 32700 + zone otherwise. -/
theorem calculate_area_utm_selection
    (centroid : CoordList → ℚ × ℚ) (utmArea : Int → CoordList → ℚ)
    (geometry : CoordList) (h3 : 3 ≤ geometry.length)
    (hlo : -180 ≤ (centroid geometry).1) (_hhi : (centroid geometry).1 ≤ 180) :
    utm_zone (centroid geometry).1 = ⌊((centroid geometry).1 + 180) / 6⌋ + 1 ∧
    calculate_area centroid utmArea geometry =
      utmArea ((if 0 ≤ (centroid geometry).2 then 32600 else 32700) +
        (⌊((centroid geometry).1 + 180) / 6⌋ + 1)) geometry := by
  have hq : 0 ≤ ((centroid geometry).1 + 180) / 6 := by
    apply div_nonneg (by linarith) (by norm_num)
  have hzone : utm_zone (centroid geometry).1 =
      ⌊((centroid geometry).1 + 180) / 6⌋ + 1 := by
    unfold utm_zone pythonInt
    rw [if_pos hq]
  refine ⟨hzone, ?_⟩
  have hlen : ¬ geometry.length < 3 := not_lt.2 h3
  unfold calculate_area
  rw [if_neg hlen]
  show utmArea (utm_epsg (centroid geometry).1 (centroid geometry).2) geometry = _
  unfold utm_epsg
  by_cases hlat : 0 ≤ (centroid geometry).2
  · rw [if_pos hlat, if_pos hlat, hzone]
  · rw [if_neg hlat, if_neg hlat, hzone]

/-- C6 witness: a triangle whose centroid is reported at longitude 7,
latitude 50 (UTM zone 32, northern hemisphere). -/
theorem calculate_area_utm_selection_witness :
    3 ≤ ([((0:ℚ), (0:ℚ)), (1, 0), (1, 1)] : CoordList).length ∧
    (utm_zone (7:ℚ) = ⌊(((7:ℚ)) + 180) / 6⌋ + 1 ∧
      calculate_area (fun _ => ((7:ℚ), (50:ℚ))) (fun e _ => (e : ℚ))
          [(0, 0), (1, 0), (1, 1)] =
        (fun (e : Int) (_ : CoordList) => (e : ℚ))
          ((if (0:ℚ) ≤ 50 then 32600 else 32700) + (⌊(((7:ℚ)) + 180) / 6⌋ + 1))
          [(0, 0), (1, 0), (1, 1)]) :=
  ⟨by decide,
   calculate_area_utm_selection (fun _ => ((7:ℚ), (50:ℚ))) (fun e _ => (e : ℚ))
     [(0, 0), (1, 0), (1, 1)] (by decide) (by norm_num) (by norm_num)⟩

/-- C7: with an empty feature list, `export_geojson` writes no file and
returns the empty string; with a non-empty list, it writes the collection to
the given filename and returns that filename. -/
theorem export_geojson_empty_noop
    (min_area_sqm : ℚ) (country : Option String)
    (bbox : Option (ℚ × ℚ × ℚ × ℚ)) (features : List Feature)
    (filename : String) :
    (features = [] →
      export_geojson min_area_sqm country bbox features filename = (none, "")) ∧
    (features ≠ [] →
      ∃ fc, export_geojson min_area_sqm country bbox features filename =
        (some (filename, fc), filename)) := by
  constructor
  · intro h
    simp [export_geojson, h]
  · intro h
    have hne : features.isEmpty = false := by simpa [List.isEmpty_iff] using h
    refine ⟨{ features := features,
              meta := { description_min := min_area_sqm,
                        count := features.length,
                        min_area_sqm := min_area_sqm,
                        country := country,
                        bounding_box := bbox } }, ?_⟩
    simp [export_geojson, hne]

/-- C7 witness: the empty list yields `(none, "")`; a one-feature list yields
a written file and the filename. -/
theorem export_geojson_empty_noop_witness :
    export_geojson 10000 none none [] "out.geojson" = (none, "") ∧
    (∃ fc, export_geojson 10000 none none
        [create_geojson_feature sampleElement [(0, 0), (1, 0), (1, 1)] 100]
        "out.geojson" = (some ("out.geojson", fc), "out.geojson")) :=
  ⟨(export_geojson_empty_noop 10000 none none [] "out.geojson").1 rfl,
   (export_geojson_empty_noop 10000 none none
       [create_geojson_feature sampleElement [(0, 0), (1, 0), (1, 1)] 100]
       "out.geojson").2 (by simp)⟩

/-- C8: the `time.sleep(1)` after the `try`/`except` of `get_country_bbox` is
unreachable: every outcome of the request — transport error, JSON parse
error, empty result list, missing bounding-box field, unparseable bounding
box, or success — returns before the sleep statement, so the rate-limiting
delay never executes. -/
theorem sleep_unreachable_in_get_country_bbox (o : FetchOutcome) :
    (get_country_bbox o).2 = false := by
  have h := get_country_bbox_try_isSome o
  unfold get_country_bbox
  rcases ho : get_country_bbox_try o with - | r
  · rw [ho] at h
    simp at h
  · rfl

/-- C10: `create_geojson_feature` mutates the caller's coordinate list
through the reference it is given: on an open ring the heap cell itself gains
the closing point (all other cells untouched), on a closed ring the heap is
unchanged, and in both cases the feature's geometry stores the same reference
rather than a copy. -/
theorem create_geojson_feature_mutates_in_place
    (heap : Heap) (element : Element) (ref : Nat) (area : ℚ)
    (h3 : 3 ≤ (heap ref).length) :
    ((create_geojson_feature_inplace heap element ref area).2.ringRef = ref) ∧
    ((heap ref).head? = (heap ref).getLast? →
      (create_geojson_feature_inplace heap element ref area).1 = heap) ∧
    ((heap ref).head? ≠ (heap ref).getLast? →
      ∃ first, (heap ref).head? = some first ∧
        (create_geojson_feature_inplace heap element ref area).1 ref =
          heap ref ++ [first] ∧
        ∀ r, r ≠ ref →
          (create_geojson_feature_inplace heap element ref area).1 r = heap r) := by
  have hne : heap ref ≠ [] := by
    intro h
    rw [h] at h3
    simp at h3
  have hheap : (create_geojson_feature_inplace heap element ref area).1 =
      Function.update heap ref (closeRing (heap ref)) := rfl
  refine ⟨rfl, fun hcl => ?_, fun hop => ?_⟩
  · rw [hheap, closeRing_of_closed hne hcl]
    exact Function.update_eq_self ref heap
  · rcases hf : (heap ref).head? with - | f
    · cases hl : heap ref
      · exact absurd hl hne
      · rw [hl] at hf
        simp at hf
    rcases hl : (heap ref).getLast? with - | l
    · cases hc : heap ref
      · exact absurd hc hne
      · rw [hc] at hl
        simp at hl
    refine ⟨f, rfl, ?_, fun r hr => ?_⟩
    · rw [hheap, closeRing_of_open hf hl (fun hfl => hop (by rw [hf, hl, hfl]))]
      simp
    · rw [hheap]
      exact Function.update_noteq hr _ heap

/-- C10 witness: on a heap whose cell 0 holds the open triangle, the cell
gains the closing point, cell 1 is untouched, and the feature references
cell 0. -/
theorem create_geojson_feature_mutates_in_place_witness :
    3 ≤ ((fun _ => [((0:ℚ), (0:ℚ)), (1, 0), (1, 1)] : Heap) 0).length ∧
    ((create_geojson_feature_inplace
        (fun _ => [((0:ℚ), (0:ℚ)), (1, 0), (1, 1)]) sampleElement 0 100).2.ringRef
      = 0) ∧
    (∃ first,
      ((fun _ => [((0:ℚ), (0:ℚ)), (1, 0), (1, 1)] : Heap) 0).head? = some first ∧
      (create_geojson_feature_inplace
          (fun _ => [((0:ℚ), (0:ℚ)), (1, 0), (1, 1)]) sampleElement 0 100).1 0 =
        (fun _ => [((0:ℚ), (0:ℚ)), (1, 0), (1, 1)] : Heap) 0 ++ [first] ∧
      ∀ r, r ≠ 0 →
        (create_geojson_feature_inplace
            (fun _ => [((0:ℚ), (0:ℚ)), (1, 0), (1, 1)]) sampleElement 0 100).1 r =
          (fun _ => [((0:ℚ), (0:ℚ)), (1, 0), (1, 1)] : Heap) r) :=
  ⟨by decide,
   (create_geojson_feature_mutates_in_place
       (fun _ => [(0, 0), (1, 0), (1, 1)]) sampleElement 0 100 (by decide)).1,
   (create_geojson_feature_mutates_in_place
       (fun _ => [(0, 0), (1, 0), (1, 1)]) sampleElement 0 100 (by decide)).2.2
     (by decide)⟩

end OSMFilter
